import Mathlib

/-!
Verification of the `aps` speech toolkit against its natural-language
specification.  Each Python routine named in the claims is shallowly embedded
below: tensors become functions out of `Fin`-indexed types over `ℚ`, the
trainer's side effects become explicit state passing plus an event trace, and
fallible constructors return `Except`.  Library numerics that the repository
only calls (eigenvalue decomposition, matrix inverse, `exp`, `sqrt`) are
parameters of the embedding, so every theorem is uniform in them.
-/

open BigOperators

/-! ## Extended logit values

Attention logits live in floats extended with `-inf` (used by the padding
mask and by the additive `attn_mask` produced by `prep_sub_mask`).  `XVal.ninf`
models `-inf`; addition saturates exactly as IEEE `-inf + x = -inf` does for
the finite or `-inf` summands that occur here, and `exp (-inf) = 0`. -/
inductive XVal
  | ninf
  | val (q : ℚ)
deriving DecidableEq

def XVal.add : XVal → XVal → XVal
  | ninf, _ => ninf
  | val _, ninf => ninf
  | val a, val b => val (a + b)

/-- `exp` on extended values: masked (`-inf`) entries contribute `0`, finite
entries go through the abstract exponential `e`. -/
def xexp (e : ℚ → ℚ) : XVal → ℚ
  | XVal.ninf => 0
  | XVal.val q => e q

/-! ## Index helpers for head-splitting and the stacked in-projection -/

/-- Row index `base * E + e` into the stacked `3E x E` projection weight,
mirroring `slice(base * embed_dim, (base + 1) * embed_dim)`. -/
def sliceIdx {E : ℕ} (i : Fin 3) (e : Fin E) : Fin (3 * E) :=
  ⟨(i : ℕ) * E + e, by
    have hi : (i : ℕ) + 1 ≤ 3 := i.isLt
    calc (i : ℕ) * E + (e : ℕ) < (i : ℕ) * E + E := Nat.add_lt_add_left e.isLt _
      _ = ((i : ℕ) + 1) * E := by ring
      _ ≤ 3 * E := Nat.mul_le_mul_right E hi⟩

/-- Embedding index `h * D + d` of head `h`, head-dimension `d`; this is the
order produced by `view(·, ·, num_heads, head_dim)` on a contiguous tensor. -/
def joinIdx {H D : ℕ} (h : Fin H) (d : Fin D) : Fin (H * D) :=
  ⟨(h : ℕ) * D + d, by
    have hh : (h : ℕ) + 1 ≤ H := h.isLt
    calc (h : ℕ) * D + (d : ℕ) < (h : ℕ) * D + D := Nat.add_lt_add_left d.isLt _
      _ = ((h : ℕ) + 1) * D := by ring
      _ ≤ H * D := Nat.mul_le_mul_right D hh⟩

def pos_right_of_lt_mul {a H D : ℕ} (h : a < H * D) : 0 < D := by
  rcases Nat.eq_zero_or_pos D with h0 | h1
  · subst h0; rw [Nat.mul_zero] at h; exact absurd h (Nat.not_lt_zero _)
  · exact h1

/-- Head component of an embedding index (inverse of `joinIdx`). -/
def splitH {H D : ℕ} (e : Fin (H * D)) : Fin H :=
  ⟨(e : ℕ) / D, (Nat.div_lt_iff_lt_mul (pos_right_of_lt_mul e.isLt)).2 e.isLt⟩

/-- Within-head component of an embedding index (inverse of `joinIdx`). -/
def splitD {H D : ℕ} (e : Fin (H * D)) : Fin D :=
  ⟨(e : ℕ) % D, Nat.mod_lt _ (pos_right_of_lt_mul e.isLt)⟩

/-! ## `ApsMultiheadAttention` (src/aps/asr/transformer/impl.py)

Parameters of the module with `embed_dim = H * D`, `num_heads = H`,
`bias = True`.  The claims fix dropout probability `0`, so the dropout layers
are the identity.  The scale factor `c` stands for `head_dim ** 0.5` and the
function `e` for the exponential used by `softmax`; both implementations use
the same ones, and every theorem is uniform in them. -/
structure ApsMultiheadAttention (H D : ℕ) where
  in_proj_weight : Fin (3 * (H * D)) → Fin (H * D) → ℚ
  in_proj_bias : Fin (3 * (H * D)) → ℚ
  out_proj_weight : Fin (H * D) → Fin (H * D) → ℚ
  out_proj_bias : Fin (H * D) → ℚ

/-- `inp_proj`'s `_proj base mat`: `tf.linear` against the rows
`[base*E, (base+1)*E)` of `in_proj_weight` followed by
`view(T, -1, num_heads, head_dim)`. -/
def ApsMultiheadAttention.inp_proj {H D T N : ℕ} (m : ApsMultiheadAttention H D) (i : Fin 3)
    (x : Fin T → Fin N → Fin (H * D) → ℚ) : Fin T → Fin N → Fin H → Fin D → ℚ :=
  fun t n h d =>
    (∑ e : Fin (H * D), m.in_proj_weight (sliceIdx i (joinIdx h d)) e * x t n e)
      + m.in_proj_bias (sliceIdx i (joinIdx h d))

/-- `th.einsum("lnhd,snhd->lnhs", query, key)` (line 174). -/
def attnLogit {L S N H D : ℕ} (q : Fin L → Fin N → Fin H → Fin D → ℚ)
    (k : Fin S → Fin N → Fin H → Fin D → ℚ) : Fin L → Fin N → Fin H → Fin S → ℚ :=
  fun l n h s => ∑ d : Fin D, q l n h d * k s n h d

/-- `logit.masked_fill(key_padding_mask[None, :, None, :], float("-inf"))`. -/
def maskFill {L N H S : ℕ} (kpm : Option (Fin N → Fin S → Bool))
    (x : Fin L → Fin N → Fin H → Fin S → XVal) : Fin L → Fin N → Fin H → Fin S → XVal :=
  fun l n h s =>
    match kpm with
    | none => x l n h s
    | some f => if f n s then XVal.ninf else x l n h s

/-- `logit += attn_mask[:, None, None, :]` (additive mask, possibly `-inf`). -/
def maskAdd {L N H S : ℕ} (am : Option (Fin L → Fin S → XVal))
    (x : Fin L → Fin N → Fin H → Fin S → XVal) : Fin L → Fin N → Fin H → Fin S → XVal :=
  fun l n h s =>
    match am with
    | none => x l n h s
    | some a => (x l n h s).add (a l s)

/-- `th.softmax(logit, dim=-1)` over extended logits, with abstract
exponential `e`; a masked entry contributes weight `0`. -/
def xsoftmax {L N H S : ℕ} (e : ℚ → ℚ) (x : Fin L → Fin N → Fin H → Fin S → XVal) :
    Fin L → Fin N → Fin H → Fin S → ℚ :=
  fun l n h s => xexp e (x l n h s) / ∑ s2 : Fin S, xexp e (x l n h s2)

/-- Lines 80-85: scale by `head_dim ** 0.5`, fill the key-padding mask with
`-inf`, then add the additive attention mask (this order is the custom
implementation's). -/
def ApsMultiheadAttention.masked_logit {L S N H : ℕ} (c : ℚ)
    (logit : Fin L → Fin N → Fin H → Fin S → ℚ)
    (kpm : Option (Fin N → Fin S → Bool)) (am : Option (Fin L → Fin S → XVal)) :
    Fin L → Fin N → Fin H → Fin S → XVal :=
  maskAdd am (maskFill kpm (fun l n h s => XVal.val (logit l n h s / c)))

/-- `context_weight` (lines 65-90), dropout identity (`p = 0`):
returns the context `einsum("lnhs,snhd->lnhd", weight, value)` and weight. -/
def ApsMultiheadAttention.context_weight {H D L S N : ℕ} (_m : ApsMultiheadAttention H D)
    (e : ℚ → ℚ) (c : ℚ)
    (logit : Fin L → Fin N → Fin H → Fin S → ℚ)
    (value : Fin S → Fin N → Fin H → Fin D → ℚ)
    (kpm : Option (Fin N → Fin S → Bool)) (am : Option (Fin L → Fin S → XVal)) :
    (Fin L → Fin N → Fin H → Fin D → ℚ) × (Fin L → Fin N → Fin H → Fin S → ℚ) :=
  let weight := xsoftmax e (ApsMultiheadAttention.masked_logit c logit kpm am)
  (fun l n h d => ∑ s : Fin S, weight l n h s * value s n h d, weight)

/-- `wrap_out` (lines 130-149): concatenate the heads, apply `out_proj`, and
average the weights over the head axis, transposing to `N x L x S`. -/
def ApsMultiheadAttention.wrap_out {H D L S N : ℕ} (m : ApsMultiheadAttention H D)
    (context : Fin L → Fin N → Fin H → Fin D → ℚ)
    (weight : Fin L → Fin N → Fin H → Fin S → ℚ) :
    (Fin L → Fin N → Fin (H * D) → ℚ) × (Fin N → Fin L → Fin S → ℚ) :=
  (fun l n e2 =>
      (∑ e3 : Fin (H * D), m.out_proj_weight e2 e3 * context l n (splitH e3) (splitD e3))
        + m.out_proj_bias e2,
   fun n l s => (∑ h : Fin H, weight l n h s) / (H : ℚ))

/-- `forward` (lines 151-179): in-projection, raw dot-product logits,
`context_weight`, `wrap_out`. -/
def ApsMultiheadAttention.forward {H D L S N : ℕ} (m : ApsMultiheadAttention H D)
    (e : ℚ → ℚ) (c : ℚ)
    (query : Fin L → Fin N → Fin (H * D) → ℚ)
    (key value : Fin S → Fin N → Fin (H * D) → ℚ)
    (kpm : Option (Fin N → Fin S → Bool)) (am : Option (Fin L → Fin S → XVal)) :
    (Fin L → Fin N → Fin (H * D) → ℚ) × (Fin N → Fin L → Fin S → ℚ) :=
  let q := m.inp_proj 0 query
  let k := m.inp_proj 1 key
  let v := m.inp_proj 2 value
  let cw := m.context_weight e c (attnLogit q k) v kpm am
  m.wrap_out cw.1 cw.2

/-- Modelled from the spec: the reference computation
`torch.nn.functional.multi_head_attention_forward` that `torch_forward`
(impl.py lines 92-128) delegates to, which is not part of this repository.
Per the spec's description of the attention engine it scales the projected
query by `head_dim ** -0.5`, adds the additive attention mask to the logits
first, then sets key-padding positions to `-inf`, applies softmax (dropout
`p = 0`), contracts with the value heads, applies the output projection, and
returns the attention weights summed over heads divided by `num_heads`. -/
def ApsMultiheadAttention.torch_forward {H D L S N : ℕ} (m : ApsMultiheadAttention H D)
    (e : ℚ → ℚ) (c : ℚ)
    (query : Fin L → Fin N → Fin (H * D) → ℚ)
    (key value : Fin S → Fin N → Fin (H * D) → ℚ)
    (kpm : Option (Fin N → Fin S → Bool)) (am : Option (Fin L → Fin S → XVal)) :
    (Fin L → Fin N → Fin (H * D) → ℚ) × (Fin N → Fin L → Fin S → ℚ) :=
  let q := fun (l : Fin L) (n : Fin N) (h : Fin H) (d : Fin D) => m.inp_proj 0 query l n h d * c⁻¹
  let k := m.inp_proj 1 key
  let v := m.inp_proj 2 value
  let masked := maskFill kpm (maskAdd am (fun l n h s => XVal.val (attnLogit q k l n h s)))
  let weight := xsoftmax e masked
  let context := fun (l : Fin L) (n : Fin N) (h : Fin H) (d : Fin D) =>
    ∑ s : Fin S, weight l n h s * v s n h d
  (fun l n e2 =>
      (∑ e3 : Fin (H * D), m.out_proj_weight e2 e3 * context l n (splitH e3) (splitD e3))
        + m.out_proj_bias e2,
   fun n l s => (∑ h : Fin H, weight l n h s) / (H : ℚ))

/-! ## `XlMultiheadAttention._rel_shift` (impl.py lines 271-290)

The source pads the relative-position tensor with one zero column
(`L x N x H x (S+1)`), transposes to `L x (S+1) x N x H`, reinterprets the
contiguous buffer as `(S+1) x L x N x H`, keeps only the FIRST slice `[:1]`,
and transposes back — so the returned tensor has last dimension `1`, not `S`.
The embedding below reproduces the flat-buffer reinterpretation exactly:
entry `(0, l, n, h)` of the viewed tensor is flat element
`(l * N + n) * H + h` of the transposed buffer, decoded in row-major order
for shape `(L, S+1, N, H)`. -/
def rel_shift {L N H S : ℕ} (rel_pos : Fin L → Fin N → Fin H → Fin S → ℚ) :
    Fin L → Fin N → Fin H → Fin 1 → ℚ :=
  fun l n h _s =>
    have hL : 0 < L := lt_of_le_of_lt (Nat.zero_le _) l.isLt
    have hN : 0 < N := lt_of_le_of_lt (Nat.zero_le _) n.isLt
    have hH : 0 < H := lt_of_le_of_lt (Nat.zero_le _) h.isLt
    -- `th.cat([rel_pos, zero_pad], dim=-1)`
    let padded : Fin L → Fin N → Fin H → Fin (S + 1) → ℚ := fun a b c d =>
      if hd : (d : ℕ) < S then rel_pos a b c ⟨d, hd⟩ else 0
    -- flat offset of entry `(0, l, n, h)` in the `(S+1, L, N, H)` view
    let f : ℕ := ((l : ℕ) * N + (n : ℕ)) * H + (h : ℕ)
    -- that flat element, decoded in the `(L, S+1, N, H)` transposed layout
    padded ⟨f / H / N / (S + 1) % L, Nat.mod_lt _ hL⟩
      ⟨f / H % N, Nat.mod_lt _ hN⟩
      ⟨f % H, Nat.mod_lt _ hH⟩
      ⟨f / H / N % (S + 1), Nat.mod_lt _ (Nat.succ_pos S)⟩

/-- In `XlMultiheadAttention.forward` the shifted term (`L x N x H x 1`) is
broadcast-added to `term_ac` (`L x N x H x S`): every key position `s`
receives the same single value. -/
def rel_shift_bc {L N H S : ℕ} (rel_pos : Fin L → Fin N → Fin H → Fin S → ℚ) :
    Fin L → Fin N → Fin H → Fin S → ℚ :=
  fun l n h _s => rel_shift rel_pos l n h ⟨0, Nat.succ_pos 0⟩

/-- The failing input for the relative-shift bug: `rel_pos` of shape
`1 x 1 x 1 x 2` whose two relative-position entries are `0` and `1`. -/
def relShiftEx : Fin 1 → Fin 1 → Fin 1 → Fin 2 → ℚ := fun _ _ _ s => ((s : ℕ) : ℚ)

/-! ## `ComplexConvXd` (src/aps/asr/enh/conv.py lines 15-36)

`real` and `imag` are the two real convolution modules (arbitrary maps from
real input tensors to real output tensors); `sqrt` models `** 0.5`. -/
structure CplxT (ι : Type) where
  re : ι → ℚ
  im : ι → ℚ

structure ComplexConvXd (ι κ : Type) where
  real : (ι → ℚ) → κ → ℚ
  imag : (ι → ℚ) → κ → ℚ

inductive ConvOut (κ : Type)
  | cplx (z : CplxT κ)
  | mag (m : κ → ℚ)

/-- `ComplexConvXd.forward`: the complex-multiplication combination of the two
real convolutions; with `add_abs` it returns `(br² + bi² + eps) ** 0.5`. -/
def ComplexConvXd.forward {ι κ : Type} (conv : ComplexConvXd ι κ) (sqrt : ℚ → ℚ)
    (x : CplxT ι) (add_abs : Bool) (eps : ℚ) : ConvOut κ :=
  let br := fun k2 => conv.real x.re k2 - conv.imag x.im k2
  let bi := fun k2 => conv.real x.im k2 + conv.imag x.re k2
  if add_abs then ConvOut.mag (fun k2 => sqrt (br k2 ^ 2 + bi k2 ^ 2 + eps))
  else ConvOut.cplx ⟨br, bi⟩

/-! ## `ApexTrainer.train_one_step` (src/aps/trainer/apex.py lines 106-147)

State is split into the model parameters and the gradients; the abstract
functions record what each framework call does to them (`backward` and
`clip_grad_norm_` write only gradients, `optimizer.step` and
`add_gaussian_noise` write only parameters, exactly as in the runtime).  The
Boolean fields are the two `math.isfinite` tests and the truthiness of the
`clip_gradient` / `gaussian_noise_std` settings.  The returned trace lists the
calls the step performed, in order. -/
inductive TrainEvent
  | zero_grad
  | forward
  | backward
  | clip_grad
  | opt_step
  | noise
  | scheduler_step
deriving DecidableEq

structure TrainerState (P G : Type) where
  params : P
  grads : G

structure StepSem (P G : Type) where
  lossFinite : Bool
  clip_gradient : Bool
  gaussian_noise_std : Bool
  clippedNormFinite : Bool
  zero_grad : G → G
  backward : G → G
  clip_grads : G → G
  opt_step : P → G → P
  add_gaussian_noise : P → P

def train_one_step {P G : Type} (sem : StepSem P G) (s : TrainerState P G) :
    Bool × TrainerState P G × List TrainEvent :=
  -- self.optimizer.zero_grad(); stats = self.task(egs, ...)
  let s1 : TrainerState P G := ⟨s.params, sem.zero_grad s.grads⟩
  let ev1 : List TrainEvent := [TrainEvent.zero_grad, TrainEvent.forward]
  if sem.lossFinite then
    -- scaled_loss.backward()
    let s2 : TrainerState P G := ⟨s1.params, sem.backward s1.grads⟩
    let ev2 := ev1 ++ [TrainEvent.backward]
    -- norm = -1; if self.clip_gradient: norm = clip_grad_norm_(...)
    let s3 : TrainerState P G :=
      if sem.clip_gradient then ⟨s2.params, sem.clip_grads s2.grads⟩ else s2
    let ev3 := if sem.clip_gradient then ev2 ++ [TrainEvent.clip_grad] else ev2
    let normFinite := if sem.clip_gradient then sem.clippedNormFinite else true
    if normFinite then
      -- self.optimizer.step()
      let s4 : TrainerState P G := ⟨sem.opt_step s3.params s3.grads, s3.grads⟩
      -- if self.gaussian_noise_std: add_gaussian_noise(...)
      let s5 : TrainerState P G :=
        if sem.gaussian_noise_std then ⟨sem.add_gaussian_noise s4.params, s4.grads⟩ else s4
      let ev5 := ev3 ++ [TrainEvent.opt_step]
        ++ (if sem.gaussian_noise_std then [TrainEvent.noise] else [])
        ++ [TrainEvent.scheduler_step]
      (true, s5, ev5)
    else (false, s3, ev3)
  else (false, s1, ev1)

/-- Gradients as they stand when `optimizer.step()` runs on a successful step. -/
def gradsAtStep {P G : Type} (sem : StepSem P G) (s : TrainerState P G) : G :=
  if sem.clip_gradient then sem.clip_grads (sem.backward (sem.zero_grad s.grads))
  else sem.backward (sem.zero_grad s.grads)

/-- Concrete semantics exercising both skip paths of `train_one_step`
(non-finite loss would already skip; clipping enabled with a non-finite
clipped norm also skips). -/
def c2sem : StepSem ℤ ℤ where
  lossFinite := false
  clip_gradient := true
  gaussian_noise_std := false
  clippedNormFinite := false
  zero_grad := fun _ => 0
  backward := fun g => g + 1
  clip_grads := fun g => g / 2
  opt_step := fun p g => p + g
  add_gaussian_noise := fun p => p + 100

def c2state : TrainerState ℤ ℤ := ⟨3, 7⟩

/-- Concrete semantics for a successful step with Gaussian noise enabled:
`optimizer.step` maps params `0` to `1`, the noise injection afterwards maps
them to `101`. -/
def c5sem : StepSem ℤ ℤ where
  lossFinite := true
  clip_gradient := false
  gaussian_noise_std := true
  clippedNormFinite := true
  zero_grad := fun _ => 0
  backward := fun g => g + 1
  clip_grads := fun g => g
  opt_step := fun p g => p + g
  add_gaussian_noise := fun p => p + 100

def c5state : TrainerState ℤ ℤ := ⟨0, 5⟩

/-- Same semantics with Gaussian noise disabled, for the amended frame
property. -/
def c5semNoNoise : StepSem ℤ ℤ where
  lossFinite := true
  clip_gradient := true
  gaussian_noise_std := false
  clippedNormFinite := true
  zero_grad := fun _ => 0
  backward := fun g => g + 4
  clip_grads := fun g => g / 2
  opt_step := fun p g => p + g
  add_gaussian_noise := fun p => p + 100

/-! ## `ApexTrainer.checkpoint_states` (apex.py lines 149-165) -/

inductive CkptVal (σ : Type)
  | int (n : ℤ)
  | state (s : σ)

structure CkptSem (σ : Type) where
  distributed : Bool
  amp_state : σ
  model_state_distributed : σ
  model_state_local : σ
  optim_state : σ
  lr_scheduler_state : σ

def checkpoint_states {σ : Type} (sem : CkptSem σ) (epoch : ℤ) : List (String × CkptVal σ) :=
  [("epoch", CkptVal.int epoch),
   ("amp_state_dict", CkptVal.state sem.amp_state),
   ("model_state_dict", CkptVal.state
      (if sem.distributed then sem.model_state_distributed else sem.model_state_local)),
   ("optim_state_dict", CkptVal.state sem.optim_state),
   ("lr_scheduler_dict", CkptVal.state sem.lr_scheduler_state)]

/-! ## Construction-time validation (att.py lines 42-43, conv.py lines 71-97,
impl.py lines 15-20) -/

inductive Activation
  | relu
  | gelu
deriving DecidableEq

def get_activation_fn (activation : String) : Except String Activation :=
  if activation = "relu" then Except.ok Activation.relu
  else if activation = "gelu" then Except.ok Activation.gelu
  else Except.error "activation should be relu/gelu"

structure AttASR where
  sos : ℤ
  eos : ℤ

/-- The SOS/EOS validation in `AttASR.__init__`; on failure the constructor
raises and no model object is returned. -/
def AttASR.init (sos eos : ℤ) : Except String AttASR :=
  if eos < 0 ∨ sos < 0 then Except.error "Unsupported SOS/EOS value"
  else Except.ok ⟨sos, eos⟩

/-- Shape of the loaded pretrained weight tensor
(`2 x spatial_filters x num_channels x num_bins`). -/
structure WeightShape where
  d0 : ℕ
  d1 : ℕ
  d2 : ℕ
  d3 : ℕ

/-- The validation performed by `TimeInvariantEnh.__init__`: the
spectra-initialization name must be `"mel"` or `"random"`, and a loaded
pretrained weight tensor must agree with `spatial_filters` in dimension 1 and
with `num_channels` in dimension 2. -/
def tiEnh_init (spectra_init : String) (weight : Option WeightShape)
    (spatial_filters num_channels : ℕ) : Except String Unit :=
  if ¬ (spectra_init = "mel" ∨ spectra_init = "random") then
    Except.error "Unsupported init method"
  else
    match weight with
    | none => Except.ok ()
    | some w =>
      if w.d1 ≠ spatial_filters then Except.error "Number of beam does not match parameter"
      else if w.d2 ≠ num_channels then Except.error "Number of channels does not match parameter"
      else Except.ok ()

/-! ## `UnsuperEnhTask` (src/aps/task/unsuper.py)

Complex scalars are pairs `(re, im)` over `ℚ`.  The library numerics the task
calls — `th.symeig` (eigenvalues of the real embedding of the Hermitian
matrix) and `Tensor.inverse` — are abstract parameters `symeig` and `inv`;
the clamping that protects the logarithms is embedded exactly. -/

abbrev CC := ℚ × ℚ

def cmul (a b : CC) : CC := (a.1 * b.1 - a.2 * b.2, a.1 * b.2 + a.2 * b.1)

def cconj (a : CC) : CC := (a.1, -a.2)

def csmul (r : ℚ) (a : CC) : CC := (r * a.1, r * a.2)

/-- `estimate_covar` (unsuper.py lines 34-54): masked covariance with the
denominator clamped to `eps`, followed by Hermitian symmetrization. -/
def estimate_covar {N F C T : ℕ} (mask : Fin N → Fin F → Fin T → ℚ)
    (obs : Fin N → Fin F → Fin C → Fin T → CC) (eps : ℚ) :
    Fin N → Fin F → Fin C → Fin C → CC :=
  fun n f i j =>
    let raw : Fin C → Fin C → CC := fun a b =>
      let nom : CC := ∑ t : Fin T, cmul (csmul (mask n f t) (obs n f a t)) (cconj (obs n f b t))
      let den : ℚ := max eps (∑ t : Fin T, mask n f t)
      csmul ((C : ℚ) / den) nom
    csmul (1 / 2) (raw i j + cconj (raw j i))

/-- `Bk = Bk + I * self.eps` in `log_pdf` (line 79). -/
def covar_eps {N F C T : ℕ} (mask : Fin N → Fin F → Fin T → ℚ)
    (obs : Fin N → Fin F → Fin C → Fin T → CC) (eps : ℚ) :
    Fin N → Fin F → Fin C → Fin C → CC :=
  fun n f i j =>
    estimate_covar mask obs eps n f i j + (if i = j then ((eps, 0) : CC) else (0, 0))

/-- The real `2C x 2C` embedding `[[Re, -Im], [Im, Re]]` built by
`hermitian_det` (lines 19-23). -/
def Rk_mat {C : ℕ} (Bk : Fin C → Fin C → CC) : Fin (2 * C) → Fin (2 * C) → ℚ :=
  fun r c =>
    if hr : (r : ℕ) < C then
      if hc : (c : ℕ) < C then (Bk ⟨r, hr⟩ ⟨c, hc⟩).1
      else -(Bk ⟨r, hr⟩ ⟨(c : ℕ) - C, by have := c.isLt; omega⟩).2
    else
      if hc : (c : ℕ) < C then (Bk ⟨(r : ℕ) - C, by have := r.isLt; omega⟩ ⟨c, hc⟩).2
      else (Bk ⟨(r : ℕ) - C, by have := r.isLt; omega⟩ ⟨(c : ℕ) - C, by have := c.isLt; omega⟩).1

/-- `hermitian_det` (lines 10-31): product of the even-indexed eigenvalues
(`th.cumprod(ev[..., ::2], dim=-1)` followed by `[..., -1]`), clamped to a
minimum of `eps`. -/
def hermitian_det {C : ℕ} (symeig : (Fin (2 * C) → Fin (2 * C) → ℚ) → Fin (2 * C) → ℚ)
    (Bk : Fin C → Fin C → CC) (eps : ℚ) : ℚ :=
  let ev := symeig (Rk_mat Bk)
  let det := ∏ i : Fin C, ev ⟨2 * (i : ℕ), by have := i.isLt; omega⟩
  max eps det

/-- The first logarithm argument of `log_pdf`: the determinant `Dk` (line 81). -/
def log_pdf_Dk {N F C T : ℕ} (symeig : (Fin (2 * C) → Fin (2 * C) → ℚ) → Fin (2 * C) → ℚ)
    (mask : Fin N → Fin F → Fin T → ℚ) (obs : Fin N → Fin F → Fin C → Fin T → CC)
    (eps : ℚ) : Fin N → Fin F → ℚ :=
  fun n f => hermitian_det symeig (fun i j => covar_eps mask obs eps n f i j) eps

/-- The second logarithm argument of `log_pdf`: the quadratic form
`K = clamp(Re einsum("...xt,...xy,...yt->...t", obs.conj, Bk_inv, obs), min=eps)`
(lines 85-86). -/
def log_pdf_K {N F C T : ℕ} (inv : (Fin C → Fin C → CC) → Fin C → Fin C → CC)
    (mask : Fin N → Fin F → Fin T → ℚ) (obs : Fin N → Fin F → Fin C → Fin T → CC)
    (eps : ℚ) : Fin N → Fin F → Fin T → ℚ :=
  fun n f t =>
    let Bk_inv := inv (fun i j => covar_eps mask obs eps n f i j)
    max eps (∑ x : Fin C, ∑ y : Fin C,
      cmul (cmul (cconj (obs n f x t)) (Bk_inv x y)) (obs n f y t)).1

/-- `log_pdf` (lines 65-90): `-C * log K - log Dk`, with `log` abstract. -/
def log_pdf {N F C T : ℕ} (symeig : (Fin (2 * C) → Fin (2 * C) → ℚ) → Fin (2 * C) → ℚ)
    (inv : (Fin C → Fin C → CC) → Fin C → Fin C → CC) (log : ℚ → ℚ)
    (mask : Fin N → Fin F → Fin T → ℚ) (obs : Fin N → Fin F → Fin C → Fin T → CC)
    (eps : ℚ) : Fin N → Fin F → Fin T → ℚ :=
  fun n f t =>
    -(C : ℚ) * log (log_pdf_K inv mask obs eps n f t) - log (log_pdf_Dk symeig mask obs eps n f)

/-! ## `TimeInvariantEnh.forward` shape semantics (conv.py lines 107-143)

The claim is about raising and about the result's shape, so the embedding
tracks shapes through each tensor operation of `forward`, with the error
conditions of the runtime operations (`Conv1d` rejects a channel-count or
kernel/length mismatch, `view` rejects a non-divisible or un-inferable `-1`).
`relu`, `log` and the eval-mode `BatchNorm2d` (whose channel dimension equals
`spatial_filters` by construction) preserve shapes and are omitted. -/

/-- Output length of `nn.Conv1d(in_channels, out_channels, kernel,
groups=groups, padding=padding)` on an `n x c x l` input (stride 1), with the
runtime's error conditions. -/
def conv1d_shape (in_channels out_channels kernel groups padding : ℕ)
    (s : ℕ × ℕ × ℕ) : Except String (ℕ × ℕ × ℕ) :=
  let (n, c, l) := s
  if groups = 0 then Except.error "conv1d groups must be positive"
  else if in_channels % groups ≠ 0 then Except.error "conv1d in_channels not divisible by groups"
  else if c ≠ in_channels then Except.error "conv1d channel mismatch"
  else if l + 2 * padding < kernel then Except.error "conv1d kernel larger than input"
  else Except.ok (n, out_channels, l + 2 * padding - kernel + 1)

/-- `view` with a single inferred `-1` dimension: the product of the known
dimensions must be positive and divide the element count. -/
def view_infer1 (numel known : ℕ) : Except String ℕ :=
  if known = 0 then Except.error "view cannot infer dimension"
  else if numel % known ≠ 0 then Except.error "view shape mismatch"
  else Except.ok (numel / known)

/-- Shape behaviour of `TimeInvariantEnh.forward` on an `N x C x F x T`
complex input, following the source line by line. -/
def tiEnh_forward_shape (num_bins num_channels B D : ℕ) (sh : ℕ × ℕ × ℕ × ℕ) :
    Except String (ℕ × ℕ × ℕ) :=
  let (N, C, F, T) := sh
  -- if C != self.C: raise RuntimeError
  if C ≠ num_channels then Except.error "Expect input channel mismatch"
  else
    -- x.transpose(1, 3).contiguous().view(-1, F, C)
    (view_infer1 (N * C * F * T) (F * C)).bind fun m1 =>
    -- self.conv(x, add_abs=True): ComplexConv1d(num_bins, B * num_bins,
    -- num_channels, groups=num_bins, padding=0)
    (conv1d_shape num_bins (B * num_bins) num_channels num_bins 0 (m1, F, C)).bind fun s2 =>
    -- b.view(-1, F, self.B)
    (view_infer1 (s2.1 * s2.2.1 * s2.2.2) (F * B)).bind fun m3 =>
    -- b.transpose(1, 2); f = relu(self.proj(b)) with proj: Linear(num_bins, D)
    if F ≠ num_bins then Except.error "linear feature size mismatch"
    else
      -- f.view(N, T, self.B, -1)
      (view_infer1 (m3 * B * D) (N * T * B)).bind fun r =>
      -- transposes and batchnorm preserve the shape; f.view(N, T, -1)
      (view_infer1 (N * T * B * r) (N * T)).bind fun r2 =>
      Except.ok (N, T, r2)

/-! ## `Phasen._forward` phase normalization (src/aps/sep/enh/phasen.py
lines 288-290) -/

/-- `EPSILON = th.finfo(th.float32).eps`, exactly `2 ** (-23)`. -/
noncomputable def PHASEN_EPSILON : ℝ := 1 / 2 ^ 23

/-- `mag = th.sqrt(pha[:, 0] ** 2 + pha[:, 1] ** 2 + EPSILON)` at one entry. -/
noncomputable def phasen_mag (p0 p1 : ℝ) : ℝ :=
  Real.sqrt (p0 ^ 2 + p1 ^ 2 + PHASEN_EPSILON)

/-- First component of `pha / mag[:, None]` at one entry. -/
noncomputable def phasen_p0 (p0 p1 : ℝ) : ℝ := p0 / phasen_mag p0 p1

/-- Second component of `pha / mag[:, None]` at one entry. -/
noncomputable def phasen_p1 (p0 p1 : ℝ) : ℝ := p1 / phasen_mag p0 p1

/-- Concrete one-channel instantiation used to witness the clamping theorem. -/
def c8mask : Fin 1 → Fin 1 → Fin 1 → ℚ := fun _ _ _ => 1

def c8obs : Fin 1 → Fin 1 → Fin 1 → Fin 1 → CC := fun _ _ _ _ => (1, 1)

def c8symeig : (Fin (2 * 1) → Fin (2 * 1) → ℚ) → Fin (2 * 1) → ℚ := fun M i => M i i

def c8inv : (Fin 1 → Fin 1 → CC) → Fin 1 → Fin 1 → CC := fun M => M

/-! # Theorems -/

theorem view_infer1_mul (k q : ℕ) (hk : 0 < k) : view_infer1 (k * q) k = Except.ok q := by
  unfold view_infer1
  rw [if_neg (by omega), if_neg (by simp [Nat.mul_mod_right]), Nat.mul_div_cancel_left q hk]

theorem conv1d_shape_eval (nb nc B m : ℕ) (hnb : 0 < nb) :
    conv1d_shape nb (B * nb) nc nb 0 (m, nb, nc) = Except.ok (m, B * nb, 1) := by
  unfold conv1d_shape
  dsimp only
  rw [if_neg (by omega), if_neg (by simp [Nat.mod_self]), if_neg (by simp), if_neg (by omega)]
  have h1 : nc + 2 * 0 - nc + 1 = 1 := by omega
  rw [h1]

/-- C1: with dropout probability 0, `ApsMultiheadAttention.forward` returns
the same context tensor and the same head-averaged attention-weight matrix as
the reference computation `torch_forward`, for every query/key/value input,
optional key-padding mask and optional additive attention mask, uniformly in
the softmax exponential `e` and the `head_dim ** 0.5` scale `c`. -/
theorem forward_eq_torch_forward {H D L S N : ℕ} (m : ApsMultiheadAttention H D)
    (e : ℚ → ℚ) (c : ℚ)
    (query : Fin L → Fin N → Fin (H * D) → ℚ)
    (key value : Fin S → Fin N → Fin (H * D) → ℚ)
    (kpm : Option (Fin N → Fin S → Bool)) (am : Option (Fin L → Fin S → XVal)) :
    m.forward e c query key value kpm am = m.torch_forward e c query key value kpm am := by
  have hmask : ∀ (l : Fin L) (n : Fin N) (h : Fin H) (s : Fin S),
      ApsMultiheadAttention.masked_logit c
          (attnLogit (m.inp_proj 0 query) (m.inp_proj 1 key)) kpm am l n h s
        = maskFill kpm (maskAdd am (fun l n h s => XVal.val (attnLogit
            (fun l n h d => m.inp_proj 0 query l n h d * c⁻¹)
            (m.inp_proj 1 key) l n h s))) l n h s := by
    intro l n h s
    have hsc : ∀ (l : Fin L) (s : Fin S), attnLogit
        (fun l n h d => m.inp_proj 0 query l n h d * c⁻¹) (m.inp_proj 1 key) l n h s
        = attnLogit (m.inp_proj 0 query) (m.inp_proj 1 key) l n h s / c := by
      intro l s
      unfold attnLogit
      dsimp only
      rw [div_eq_mul_inv, Finset.sum_mul]
      exact Finset.sum_congr rfl fun d _ => mul_right_comm _ _ _
    unfold ApsMultiheadAttention.masked_logit maskFill maskAdd
    cases kpm with
    | none =>
      cases am with
      | none => exact congrArg XVal.val (hsc l s).symm
      | some a => exact congrArg (fun z => XVal.add (XVal.val z) (a l s)) (hsc l s).symm
    | some f =>
      cases am with
      | none =>
        by_cases hf : f n s
        · simp only [hf, if_true]
        · simp only [hf, if_false]
          exact congrArg XVal.val (hsc l s).symm
      | some a =>
        by_cases hf : f n s
        · simp only [hf, if_true]
          rfl
        · simp only [hf, if_false]
          exact congrArg (fun z => XVal.add (XVal.val z) (a l s)) (hsc l s).symm
  have hmaskf :
      ApsMultiheadAttention.masked_logit c
          (attnLogit (m.inp_proj 0 query) (m.inp_proj 1 key)) kpm am
        = maskFill kpm (maskAdd am (fun l n h s => XVal.val (attnLogit
            (fun l n h d => m.inp_proj 0 query l n h d * c⁻¹)
            (m.inp_proj 1 key) l n h s))) :=
    funext fun l => funext fun n => funext fun h => funext fun s => hmask l n h s
  simp only [ApsMultiheadAttention.forward, ApsMultiheadAttention.torch_forward,
    ApsMultiheadAttention.context_weight, ApsMultiheadAttention.wrap_out]
  rw [hmaskf]

/-- C2: if the forward loss is non-finite, `train_one_step` returns `False`
without calling `optimizer.step` and leaves every model parameter identical
to its pre-step value; likewise when gradient clipping is enabled and the
clipped gradient norm is non-finite. -/
theorem train_one_step_skips_nonfinite {P G : Type} (sem : StepSem P G)
    (s : TrainerState P G) :
    (sem.lossFinite = false →
      (train_one_step sem s).1 = false ∧
      (train_one_step sem s).2.1.params = s.params ∧
      TrainEvent.opt_step ∉ (train_one_step sem s).2.2) ∧
    (sem.clip_gradient = true → sem.clippedNormFinite = false →
      (train_one_step sem s).1 = false ∧
      (train_one_step sem s).2.1.params = s.params ∧
      TrainEvent.opt_step ∉ (train_one_step sem s).2.2) := by
  constructor
  · intro h
    simp [train_one_step, h]
  · intro h1 h2
    cases hl : sem.lossFinite
    · simp [train_one_step, hl]
    · simp [train_one_step, hl, h1, h2]

/-- C2 witness: concrete run with both a non-finite loss and (clipping
enabled) a non-finite clipped norm. -/
theorem train_one_step_skips_nonfinite_witness :
    ((train_one_step c2sem c2state).1 = false ∧
      (train_one_step c2sem c2state).2.1.params = c2state.params ∧
      TrainEvent.opt_step ∉ (train_one_step c2sem c2state).2.2) ∧
    ((train_one_step c2sem c2state).1 = false ∧
      (train_one_step c2sem c2state).2.1.params = c2state.params ∧
      TrainEvent.opt_step ∉ (train_one_step c2sem c2state).2.2) :=
  ⟨(train_one_step_skips_nonfinite c2sem c2state).1 rfl,
   (train_one_step_skips_nonfinite c2sem c2state).2 rfl rfl⟩

/-- C5 counterexample: with `gaussian_noise_std` set, a successful step
writes the parameters again after `optimizer.step` (the Gaussian noise
injection): the step returns `True`, the trace shows a parameter write after
`opt_step`, and the final parameters (101) differ from the value produced by
`optimizer.step` (1). -/
theorem train_one_step_noise_after_step :
    (train_one_step c5sem c5state).1 = true ∧
    (train_one_step c5sem c5state).2.2
      = [TrainEvent.zero_grad, TrainEvent.forward, TrainEvent.backward,
         TrainEvent.opt_step, TrainEvent.noise, TrainEvent.scheduler_step] ∧
    (train_one_step c5sem c5state).2.1.params = 101 ∧
    c5sem.opt_step c5state.params (gradsAtStep c5sem c5state) = 1 ∧
    (101 : ℤ) ≠ 1 := by
  refine ⟨rfl, rfl, by decide, by decide, by decide⟩

/-- C5 (amended): on a successful step the parameters are written only by
`optimizer.step` and — when `gaussian_noise_std` is set — by the Gaussian
noise injection immediately after it; with `gaussian_noise_std` unset there
is no parameter write after `optimizer.step` before returning `True`. -/
theorem train_one_step_param_writes {P G : Type} (sem : StepSem P G)
    (s : TrainerState P G) (hsucc : (train_one_step sem s).1 = true) :
    (train_one_step sem s).2.1.params
      = (if sem.gaussian_noise_std then
          sem.add_gaussian_noise (sem.opt_step s.params (gradsAtStep sem s))
        else sem.opt_step s.params (gradsAtStep sem s)) ∧
    (sem.gaussian_noise_std = false →
      (train_one_step sem s).2.1.params
        = sem.opt_step s.params (gradsAtStep sem s)) := by
  cases hl : sem.lossFinite
  · rw [train_one_step] at hsucc
    simp [hl] at hsucc
  · cases hc : sem.clip_gradient
    · constructor
      · cases hn : sem.gaussian_noise_std <;>
          simp [train_one_step, gradsAtStep, hl, hc, hn]
      · intro hn
        simp [train_one_step, gradsAtStep, hl, hc, hn]
    · cases hfin : sem.clippedNormFinite
      · rw [train_one_step] at hsucc
        simp [hl, hc, hfin] at hsucc
      · constructor
        · cases hn : sem.gaussian_noise_std <;>
            simp [train_one_step, gradsAtStep, hl, hc, hfin, hn]
        · intro hn
          simp [train_one_step, gradsAtStep, hl, hc, hfin, hn]

/-- C5 witness: a successful concrete step with noise disabled; the final
parameters are exactly what `optimizer.step` produced. -/
theorem train_one_step_param_writes_witness :
    (train_one_step c5semNoNoise c5state).2.1.params
      = c5semNoNoise.opt_step c5state.params (gradsAtStep c5semNoNoise c5state) :=
  (train_one_step_param_writes c5semNoNoise c5state (by decide)).2 rfl

/-- C6: `checkpoint_states` returns exactly five entries — the epoch index,
the amp scaler state, the model parameter state (from the wrapped module in
distributed mode), the optimizer state and the learning-rate-scheduler
state — with pairwise distinct keys, no more and no fewer. -/
theorem checkpoint_states_spec {σ : Type} (sem : CkptSem σ) (epoch : ℤ) :
    (checkpoint_states sem epoch).length = 5 ∧
    (checkpoint_states sem epoch).map Prod.fst
      = ["epoch", "amp_state_dict", "model_state_dict", "optim_state_dict",
         "lr_scheduler_dict"] ∧
    ((checkpoint_states sem epoch).map Prod.fst).Nodup ∧
    (checkpoint_states sem epoch).get? 0 = some ("epoch", CkptVal.int epoch) ∧
    (checkpoint_states sem epoch).get? 1
      = some ("amp_state_dict", CkptVal.state sem.amp_state) ∧
    (checkpoint_states sem epoch).get? 2
      = some ("model_state_dict", CkptVal.state
          (if sem.distributed then sem.model_state_distributed else sem.model_state_local)) ∧
    (checkpoint_states sem epoch).get? 3
      = some ("optim_state_dict", CkptVal.state sem.optim_state) ∧
    (checkpoint_states sem epoch).get? 4
      = some ("lr_scheduler_dict", CkptVal.state sem.lr_scheduler_state) := by
  refine ⟨rfl, rfl, ?_, rfl, rfl, rfl, rfl, rfl⟩
  show (["epoch", "amp_state_dict", "model_state_dict", "optim_state_dict",
    "lr_scheduler_dict"] : List String).Nodup
  decide

/-- C7: construction-time validation is fatal: `AttASR.__init__` errors
whenever `sos < 0` or `eos < 0`; `TimeInvariantEnh.__init__` errors whenever
the spectra-init name is neither "mel" nor "random" and whenever a loaded
weight's beam or channel dimension mismatches the configuration;
`_get_activation_fn` errors on every name other than "relu"/"gelu".  In each
case an `Except.error` is produced and no constructed object is returned. -/
theorem construction_validation_fatal :
    (∀ sos eos : ℤ, sos < 0 ∨ eos < 0 →
      ∃ msg, AttASR.init sos eos = Except.error msg) ∧
    (∀ (s : String) (w : Option WeightShape) (sf nc : ℕ),
      ¬ (s = "mel" ∨ s = "random") →
      ∃ msg, tiEnh_init s w sf nc = Except.error msg) ∧
    (∀ (s : String) (w : WeightShape) (sf nc : ℕ), w.d1 ≠ sf ∨ w.d2 ≠ nc →
      ∃ msg, tiEnh_init s (some w) sf nc = Except.error msg) ∧
    (∀ a : String, a ≠ "relu" → a ≠ "gelu" →
      ∃ msg, get_activation_fn a = Except.error msg) := by
  refine ⟨?_, ?_, ?_, ?_⟩
  · intro sos eos h
    exact ⟨"Unsupported SOS/EOS value", by unfold AttASR.init; rw [if_pos (by tauto)]⟩
  · intro s w sf nc h
    exact ⟨"Unsupported init method", by unfold tiEnh_init; rw [if_pos h]⟩
  · intro s w sf nc h
    unfold tiEnh_init
    by_cases hs : ¬ (s = "mel" ∨ s = "random")
    · exact ⟨"Unsupported init method", by rw [if_pos hs]⟩
    · rw [if_neg hs]
      dsimp only
      by_cases h1 : w.d1 ≠ sf
      · exact ⟨"Number of beam does not match parameter", by rw [if_pos h1]⟩
      · rcases h with hh | hh
        · exact absurd hh h1
        · exact ⟨"Number of channels does not match parameter",
            by rw [if_neg h1, if_pos hh]⟩
  · intro a h1 h2
    exact ⟨"activation should be relu/gelu",
      by unfold get_activation_fn; rw [if_neg h1, if_neg h2]⟩

/-- C7 witness: each validation fires at a concrete bad input. -/
theorem construction_validation_fatal_witness :
    (∃ msg, AttASR.init (-1) 0 = Except.error msg) ∧
    (∃ msg, tiEnh_init "foo" none 8 4 = Except.error msg) ∧
    (∃ msg, tiEnh_init "mel" (some ⟨2, 3, 4, 257⟩) 8 4 = Except.error msg) ∧
    (∃ msg, get_activation_fn "tanh" = Except.error msg) :=
  ⟨construction_validation_fatal.1 (-1) 0 (Or.inl (by decide)),
   construction_validation_fatal.2.1 "foo" none 8 4 (by decide),
   construction_validation_fatal.2.2.1 "mel" ⟨2, 3, 4, 257⟩ 8 4 (Or.inl (by decide)),
   construction_validation_fatal.2.2.2 "tanh" (by decide) (by decide)⟩

/-- C3: evaluation of `_rel_shift` at the failing input.  On a
`1 x 1 x 1 x 2` relative-position tensor with entries `0, 1`, the shifted
term added to the attention logits is the constant `0` at BOTH key positions
(the function returns a last dimension of size `1`, broadcast over `S`),
although the input entries at the two relative offsets differ — so no
`L x N x H x S` circular-shift realignment is produced, contradicting the
function's own docstring. -/
theorem rel_shift_bug_eval :
    rel_shift_bc relShiftEx 0 0 0 0 = 0 ∧
    rel_shift_bc relShiftEx 0 0 0 1 = 0 ∧
    relShiftEx 0 0 0 0 = 0 ∧
    relShiftEx 0 0 0 1 = 1 := by decide

/-- C4: `ComplexConvXd.forward` returns the complex pair with real part
`real_conv(xr) - imag_conv(xi)` and imaginary part
`real_conv(xi) + imag_conv(xr)`; with `add_abs` it returns
`sqrt(real_part ** 2 + imag_part ** 2 + eps)` instead. -/
theorem complex_conv_forward_spec {ι κ : Type} (conv : ComplexConvXd ι κ)
    (sqrt : ℚ → ℚ) (x : CplxT ι) (eps : ℚ) :
    conv.forward sqrt x false eps
      = ConvOut.cplx ⟨fun k => conv.real x.re k - conv.imag x.im k,
                      fun k => conv.real x.im k + conv.imag x.re k⟩ ∧
    conv.forward sqrt x true eps
      = ConvOut.mag (fun k => sqrt ((conv.real x.re k - conv.imag x.im k) ^ 2
          + (conv.real x.im k + conv.imag x.re k) ^ 2 + eps)) :=
  ⟨rfl, rfl⟩

/-- C8: both logarithm arguments of `UnsuperEnhTask.log_pdf` are clamped to a
minimum of `eps`, hence strictly positive whenever `eps > 0`, for every
input, every eigenvalue routine and every matrix-inverse routine; and
`log_pdf` is exactly `-C * log K - log Dk` of those clamped arguments. -/
theorem log_pdf_log_args_clamped {N F C T : ℕ}
    (symeig : (Fin (2 * C) → Fin (2 * C) → ℚ) → Fin (2 * C) → ℚ)
    (inv : (Fin C → Fin C → CC) → Fin C → Fin C → CC) (log : ℚ → ℚ)
    (mask : Fin N → Fin F → Fin T → ℚ) (obs : Fin N → Fin F → Fin C → Fin T → CC)
    (eps : ℚ) (heps : 0 < eps) (n : Fin N) (f : Fin F) (t : Fin T) :
    eps ≤ log_pdf_K inv mask obs eps n f t ∧
    eps ≤ log_pdf_Dk symeig mask obs eps n f ∧
    0 < log_pdf_K inv mask obs eps n f t ∧
    0 < log_pdf_Dk symeig mask obs eps n f ∧
    log_pdf symeig inv log mask obs eps n f t
      = -(C : ℚ) * log (log_pdf_K inv mask obs eps n f t)
        - log (log_pdf_Dk symeig mask obs eps n f) := by
  have hK : eps ≤ log_pdf_K inv mask obs eps n f t := le_max_left _ _
  have hD : eps ≤ log_pdf_Dk symeig mask obs eps n f := le_max_left _ _
  exact ⟨hK, hD, lt_of_lt_of_le heps hK, lt_of_lt_of_le heps hD, rfl⟩

/-- C8 witness: concrete single-channel input with `eps = 1`, identity `log`
and a concrete eigenvalue/inverse routine. -/
theorem log_pdf_log_args_clamped_witness :
    (1 : ℚ) ≤ log_pdf_K c8inv c8mask c8obs 1 0 0 0 ∧
    (1 : ℚ) ≤ log_pdf_Dk c8symeig c8mask c8obs 1 0 0 ∧
    (0 : ℚ) < log_pdf_K c8inv c8mask c8obs 1 0 0 0 ∧
    (0 : ℚ) < log_pdf_Dk c8symeig c8mask c8obs 1 0 0 ∧
    log_pdf c8symeig c8inv id c8mask c8obs 1 0 0 0
      = -(1 : ℚ) * id (log_pdf_K c8inv c8mask c8obs 1 0 0 0)
        - id (log_pdf_Dk c8symeig c8mask c8obs 1 0 0) :=
  log_pdf_log_args_clamped c8symeig c8inv id c8mask c8obs 1 one_pos 0 0 0

/-- C9 counterexample: the claimed equivalence "raises iff the channel count
differs from `num_channels`" fails: with `num_bins = 2`, `num_channels = 1`,
`spatial_filters = spectra_filters = 1`, the input of shape `1 x 1 x 3 x 1`
has the configured channel count yet `forward` raises (the convolution
rejects `F = 3` bins against its `num_bins = 2` input channels). -/
theorem tiEnh_forward_shape_counterexample :
    tiEnh_forward_shape 2 1 1 1 (1, 1, 3, 1) = Except.error "conv1d channel mismatch" ∧
    ¬ (∀ C F : ℕ,
        (∃ y, tiEnh_forward_shape 2 1 1 1 (1, C, F, 1) = Except.ok y) ↔ C = 1) := by
  constructor
  · rfl
  · intro hall
    rcases (hall 1 3).2 rfl with ⟨y, hy⟩
    rw [show tiEnh_forward_shape 2 1 1 1 (1, 1, 3, 1)
        = Except.error "conv1d channel mismatch" from rfl] at hy
    cases hy

/-- C9 (amended): for a 4-dimensional complex input whose bin dimension
equals the configured `num_bins` (and positive sizes), `forward` raises iff
the channel count differs from `num_channels`, and otherwise returns a (real)
tensor of shape `N x T x (spatial_filters * spectra_filters)`. -/
theorem tiEnh_forward_shape_amended (nb nc B D N C T : ℕ)
    (hnb : 0 < nb) (hnc : 0 < nc) (hB : 0 < B) (_hD : 0 < D)
    (hN : 0 < N) (hT : 0 < T) :
    tiEnh_forward_shape nb nc B D (N, C, nb, T)
      = if C = nc then Except.ok (N, T, B * D)
        else Except.error "Expect input channel mismatch" := by
  by_cases hC : C = nc
  · subst hC
    rw [if_pos rfl]
    unfold tiEnh_forward_shape
    dsimp only
    rw [if_neg (fun h => h rfl)]
    have h1 : N * C * nb * T = (nb * C) * (N * T) := by ring
    rw [h1, view_infer1_mul _ _ (Nat.mul_pos hnb hnc)]
    simp only [Except.bind]
    rw [conv1d_shape_eval nb C B (N * T) hnb]
    simp only [Except.bind]
    have h2 : N * T * (B * nb) * 1 = (nb * B) * (N * T) := by ring
    rw [h2, view_infer1_mul _ _ (Nat.mul_pos hnb hB)]
    simp only [Except.bind]
    rw [if_neg (fun h => h rfl)]
    rw [view_infer1_mul (N * T * B) D (Nat.mul_pos (Nat.mul_pos hN hT) hB)]
    dsimp only
    have h4 : N * T * B * D = (N * T) * (B * D) := by ring
    rw [h4, view_infer1_mul _ _ (Nat.mul_pos hN hT)]
  · rw [if_neg hC]
    unfold tiEnh_forward_shape
    dsimp only
    rw [if_pos hC]

/-- C9 witness: concrete configuration `num_bins = 2`, `num_channels = 3`,
`spatial_filters = 4`, `spectra_filters = 5` on a `7 x 3 x 2 x 11` input. -/
theorem tiEnh_forward_shape_amended_witness :
    tiEnh_forward_shape 2 3 4 5 (7, 3, 2, 11)
      = if 3 = 3 then Except.ok (7, 11, 4 * 5)
        else Except.error "Expect input channel mismatch" :=
  tiEnh_forward_shape_amended 2 3 4 5 7 3 11 (by decide) (by decide) (by decide)
    (by decide) (by decide) (by decide)

/-- C10: the phase-normalization divisor of `Phasen._forward` is at least
`sqrt(EPSILON) > 0` for every input, so the division is well-defined, and the
normalized phase components satisfy
`pr ** 2 + pi ** 2 = (pha_0 ** 2 + pha_1 ** 2) / (pha_0 ** 2 + pha_1 ** 2 + EPSILON) < 1`. -/
theorem phasen_phase_norm_safe (p0 p1 : ℝ) :
    Real.sqrt PHASEN_EPSILON ≤ phasen_mag p0 p1 ∧
    0 < phasen_mag p0 p1 ∧
    phasen_p0 p0 p1 ^ 2 + phasen_p1 p0 p1 ^ 2
      = (p0 ^ 2 + p1 ^ 2) / (p0 ^ 2 + p1 ^ 2 + PHASEN_EPSILON) ∧
    phasen_p0 p0 p1 ^ 2 + phasen_p1 p0 p1 ^ 2 < 1 := by
  have hE : (0 : ℝ) < PHASEN_EPSILON := by unfold PHASEN_EPSILON; positivity
  have hsq : (0 : ℝ) ≤ p0 ^ 2 + p1 ^ 2 := by positivity
  have ht : (0 : ℝ) < p0 ^ 2 + p1 ^ 2 + PHASEN_EPSILON := by linarith
  have hmagsq : phasen_mag p0 p1 ^ 2 = p0 ^ 2 + p1 ^ 2 + PHASEN_EPSILON :=
    Real.sq_sqrt ht.le
  have heq : phasen_p0 p0 p1 ^ 2 + phasen_p1 p0 p1 ^ 2
      = (p0 ^ 2 + p1 ^ 2) / (p0 ^ 2 + p1 ^ 2 + PHASEN_EPSILON) := by
    unfold phasen_p0 phasen_p1
    rw [div_pow, div_pow, div_add_div_same, hmagsq]
  refine ⟨Real.sqrt_le_sqrt (by linarith), Real.sqrt_pos.2 ht, heq, ?_⟩
  rw [heq]
  exact (div_lt_one ht).2 (by linarith)
